import Mathlib

/-!
Verification of the Stork monitoring system against its specification.

This file contains a shallow embedding of the parts of the Stork code base
that the verified claims are about:

* the agent credentials store and its IP-address canonicalization
  (package `agent`, `credentialsstore.go`; the implementation is modelled
  from the specification because only its tests are part of the source
  snapshot),
* the configuration-review checker controller
  (`server/configreview/checkercontroler.go`),
* the subnet-overlap detector and the out-of-pool-reservations checker
  (`server/configreview/keachecker.go`, modelled from the specification
  and pinned-down by `keachecker_test.go`),
* subnet statistics serialization and the utilization calculator
  (`server/database/model/subnet.go`, `server/apps/kea/utilizationcalculator.go`),
* the Kea Control Agent configuration address resolution
  (package `keaconfig`, modelled from the specification).
-/
set_option maxRecDepth 100000

namespace Stork

/-! ## Decimal and hexadecimal digits -/
def decDigitVal (c : Char) : Option Nat :=
  if '0' ≤ c ∧ c ≤ '9' then some (c.toNat - 48) else none

def hexDigitVal (c : Char) : Option Nat :=
  if '0' ≤ c ∧ c ≤ '9' then some (c.toNat - 48)
  else if 'a' ≤ c ∧ c ≤ 'f' then some (c.toNat - 87)
  else if 'A' ≤ c ∧ c ≤ 'F' then some (c.toNat - 55)
  else none

def decChar (d : Nat) : Char := Char.ofNat (48 + d)

def hexChar (d : Nat) : Char :=
  if d < 10 then Char.ofNat (48 + d) else Char.ofNat (87 + d)

/-- Decimal digits of a natural number, most significant first; the fuel
argument bounds the recursion depth structurally. -/
def natDigitsAux : Nat → Nat → List Char → List Char
  | 0, n, acc => decChar n :: acc
  | fuel + 1, n, acc =>
    if n < 10 then decChar n :: acc
    else natDigitsAux fuel (n / 10) (decChar (n % 10) :: acc)

def natDigits (n : Nat) : List Char := natDigitsAux n n []

def natStr (n : Nat) : String := ⟨natDigits n⟩

/-! ## IP address parsing

Modelled from the spec: the credentials store implementation
(`agent/credentialsstore.go`) is absent from the source snapshot; only its
tests are present.  The spec says the store "accepts only parseable
IPv4/IPv6 literals" and canonicalizes them, so we model the literal
address parser (`net.ParseIP` as used by `storkutil.ParseIP`): dotted-quad
IPv4, and IPv6 with 1-4 hex digit groups, a single `::` abbreviation and
an optional embedded trailing IPv4 part. -/
def splitOnChar (sep : Char) : List Char → List (List Char)
  | [] => [[]]
  | c :: cs =>
    if c = sep then [] :: splitOnChar sep cs
    else
      match splitOnChar sep cs with
      | [] => [[c]]
      | g :: gs => (c :: g) :: gs

/-- One dotted-quad component: 1-3 decimal digits, value at most 255,
no leading zeros. -/
def parseOctet (cs : List Char) : Option Nat :=
  match cs.mapM decDigitVal with
  | none => none
  | some ds =>
    if ds = [] then none
    else if ds.length > 1 ∧ ds.headI = 0 then none
    else
      let v := ds.foldl (fun a d => a * 10 + d) 0
      if v ≤ 255 then some v else none

def parseIPv4 (cs : List Char) : Option (Nat × Nat × Nat × Nat) :=
  match (splitOnChar '.' cs).mapM parseOctet with
  | some [a, b, c, d] => some (a, b, c, d)
  | _ => none

/-- One IPv6 group: 1-4 hexadecimal digits. -/
def parseHexGroup (cs : List Char) : Option Nat :=
  match cs.mapM hexDigitVal with
  | none => none
  | some ds =>
    if ds.length = 0 ∨ ds.length > 4 then none
    else some (ds.foldl (fun a d => a * 16 + d) 0)

/-- Parses a run of colon-separated IPv6 segments into 16-bit group values.
When `v4ok` is set, the final segment may be an embedded dotted-quad IPv4
address contributing two groups. -/
def parseSegs (v4ok : Bool) : List (List Char) → Option (List Nat)
  | [] => some []
  | [last] =>
    if last.contains '.' then
      if v4ok then
        match parseIPv4 last with
        | some (a, b, c, d) => some [a * 256 + b, c * 256 + d]
        | none => none
      else none
    else (parseHexGroup last).map (fun g => [g])
  | s :: rest =>
    match parseHexGroup s, parseSegs v4ok rest with
    | some g, some gs => some (g :: gs)
    | _, _ => none

/-- Splits a segment list at its first empty segment. -/
def splitAtEmpty : List (List Char) → Option (List (List Char) × List (List Char))
  | [] => none
  | s :: rest =>
    if s = [] then some ([], rest)
    else
      match splitAtEmpty rest with
      | some (l, r) => some (s :: l, r)
      | none => none

def emptyCount (segs : List (List Char)) : Nat := (segs.filter (· = [])).length

/-- Parses an IPv6 literal into its eight 16-bit groups. -/
def parseIPv6 (cs : List Char) : Option (List Nat) :=
  let segs := splitOnChar ':' cs
  let n := segs.length
  if emptyCount segs = 0 then
    match parseSegs true segs with
    | some gs => if gs.length = 8 then some gs else none
    | none => none
  else if segs = [[], [], []] then
    some (List.replicate 8 0)
  else if n ≥ 3 ∧ segs.take 2 = [[], []] ∧ emptyCount segs = 2 then
    match parseSegs true (segs.drop 2) with
    | some gs =>
      if gs.length ≤ 7 then some (List.replicate (8 - gs.length) 0 ++ gs) else none
    | none => none
  else if n ≥ 3 ∧ segs.drop (n - 2) = [[], []] ∧ emptyCount segs = 2 then
    match parseSegs false (segs.take (n - 2)) with
    | some gs =>
      if gs.length ≤ 7 then some (gs ++ List.replicate (8 - gs.length) 0) else none
    | none => none
  else if emptyCount segs = 1 then
    match splitAtEmpty segs with
    | some (l, r) =>
      if l = [] ∨ r = [] then none
      else
        match parseSegs false l, parseSegs true r with
        | some gl, some gr =>
          if gl.length + gr.length ≤ 7 then
            some (gl ++ List.replicate (8 - gl.length - gr.length) 0 ++ gr)
          else none
        | _, _ => none
    | none => none
  else none

inductive IPAddr where
  | v4 (a b c d : Nat)
  | v6 (groups : List Nat)
deriving DecidableEq

/-- Modelled from the spec: the literal IP-address parser used by the
absent `agent/credentialsstore.go` (Go `net.ParseIP` via
`storkutil.ParseIP`); the first `.` or `:` character decides the address
family. -/
def parseIP (s : String) : Option IPAddr :=
  match s.toList.find? (fun c => c = '.' ∨ c = ':') with
  | some '.' => (parseIPv4 s.toList).map fun (a, b, c, d) => .v4 a b c d
  | some ':' => (parseIPv6 s.toList).map .v6
  | _ => none

/-! ## Canonical address form

Spec: "The IP key is always canonicalized: IPv4 parsed and re-emitted in
dotted-quad form; IPv6 lowercased and zero-collapsed to the shortest form". -/
/-- Lowercase hexadecimal rendering of a 16-bit group without leading zeros. -/
def hexGroupStr (g : Nat) : List Char :=
  match [g / 4096 % 16, g / 256 % 16, g / 16 % 16, g % 16].dropWhile (· = 0) with
  | [] => ['0']
  | ds => ds.map hexChar

/-- Length of the zero prefix of a group list. -/
def zeroRunAt : List Nat → Nat
  | 0 :: rest => zeroRunAt rest + 1
  | _ => 0

/-- Leftmost longest run of at least two zero groups, as (start, length). -/
def bestZeroRun (gs : List Nat) : Option (Nat × Nat) :=
  (List.range gs.length).foldl
    (fun best i =>
      let l := zeroRunAt (gs.drop i)
      let keep : Bool := match best with | none => true | some p => decide (p.2 < l)
      if l ≥ 2 ∧ keep = true then some (i, l) else best)
    none

def ipv6CanonicalString (gs : List Nat) : String :=
  match bestZeroRun gs with
  | none => String.intercalate ":" (gs.map fun g => (⟨hexGroupStr g⟩ : String))
  | some (i, l) =>
    String.intercalate ":" ((gs.take i).map fun g => (⟨hexGroupStr g⟩ : String))
      ++ "::"
      ++ String.intercalate ":" ((gs.drop (i + l)).map fun g => (⟨hexGroupStr g⟩ : String))

/-- Modelled from the spec: the canonical key form of the absent
`agent/credentialsstore.go` — IPv4 re-emitted as dotted-quad, IPv6
lowercased and zero-collapsed to the shortest form. -/
def canonicalIPString : IPAddr → String
  | .v4 a b c d => natStr a ++ "." ++ natStr b ++ "." ++ natStr c ++ "." ++ natStr d
  | .v6 gs => ipv6CanonicalString gs

/-! ## The credentials store

Modelled from the spec: `agent/credentialsstore.go` is not part of the
source snapshot.  Spec 4.A: a mapping `(normalized_ip, port) → BasicAuth`;
`add_or_update_basic_auth(ip, port, creds)` accepts only parseable
IPv4/IPv6 literals and stores under canonical form, `get_basic_auth`
canonicalizes the query key then looks up, `remove_basic_auth` is
idempotent. -/
structure BasicAuthCredentials where
  User : String
  Password : String
deriving DecidableEq

def NewBasicAuthCredentials (user password : String) : BasicAuthCredentials :=
  ⟨user, password⟩

structure CredentialsStore where
  basicAuthCredentials : List ((String × Int) × BasicAuthCredentials)
deriving DecidableEq

def NewCredentialsStore : CredentialsStore := ⟨[]⟩

/-- The store key for an address/port pair: the canonical string of the
parsed address, or `none` for an unparseable literal. -/
def credentialsKey (address : String) (port : Int) : Option (String × Int) :=
  (parseIP address).map fun ip => (canonicalIPString ip, port)

def keyFind (key : String × Int) :
    List ((String × Int) × BasicAuthCredentials) → Option BasicAuthCredentials
  | [] => none
  | (k, c) :: rest => if k = key then some c else keyFind key rest

def keyErase (key : String × Int) (l : List ((String × Int) × BasicAuthCredentials)) :
    List ((String × Int) × BasicAuthCredentials) :=
  l.filter fun e => e.1 ≠ key

/-- Modelled from the spec: `AddOrUpdateBasicAuth` of the absent
`agent/credentialsstore.go` — accepts only parseable literals and stores
under the canonical key. -/
def CredentialsStore.AddOrUpdateBasicAuth (store : CredentialsStore) (address : String)
    (port : Int) (credentials : BasicAuthCredentials) : Except String CredentialsStore :=
  match credentialsKey address port with
  | none => .error "invalid IP address"
  | some key => .ok ⟨(key, credentials) :: keyErase key store.basicAuthCredentials⟩

/-- Modelled from the spec: `GetBasicAuth` of the absent
`agent/credentialsstore.go` — canonicalizes the query key, then looks
up. -/
def CredentialsStore.GetBasicAuth (store : CredentialsStore) (address : String)
    (port : Int) : Option BasicAuthCredentials :=
  match credentialsKey address port with
  | none => none
  | some key => keyFind key store.basicAuthCredentials

/-- Modelled from the spec: `RemoveBasicAuth` of the absent
`agent/credentialsstore.go` — canonicalizes the key and removes the
entry; idempotent. -/
def CredentialsStore.RemoveBasicAuth (store : CredentialsStore) (address : String)
    (port : Int) : CredentialsStore :=
  match credentialsKey address port with
  | none => store
  | some key => ⟨keyErase key store.basicAuthCredentials⟩

/-- Every key of the store is in the image of the canonical printer. -/
def storeKeysCanonical (store : CredentialsStore) : Prop :=
  ∀ e ∈ store.basicAuthCredentials, ∃ ip, e.1.1 = canonicalIPString ip

/-! ## The config-review checker controller

Translated from `server/configreview/checkercontroler.go`.  Go maps are
embedded as association lists with last-write-wins update semantics. -/
def assocFind {α β : Type} [DecidableEq α] (k : α) : List (α × β) → Option β
  | [] => none
  | (k2, v) :: rest => if k2 = k then some v else assocFind k rest

def assocSet {α β : Type} [DecidableEq α] (k : α) (v : β) (l : List (α × β)) :
    List (α × β) :=
  (k, v) :: l.filter fun e => e.1 ≠ k

def assocErase {α β : Type} [DecidableEq α] (k : α) (l : List (α × β)) : List (α × β) :=
  l.filter fun e => e.1 ≠ k

inductive CheckerState where
  | inherit
  | disabled
  | enabled
deriving DecidableEq

structure checkerControllerImpl where
  globalStates : List (String × Bool)
  daemonStates : List (Int × List (String × Bool))
deriving DecidableEq

def newCheckerController : checkerControllerImpl := ⟨[], []⟩

def checkerControllerImpl.GetGlobalState (c : checkerControllerImpl)
    (checkerName : String) : Bool :=
  match assocFind checkerName c.globalStates with
  | none => true
  | some enabled => enabled

def checkerControllerImpl.SetGlobalState (c : checkerControllerImpl)
    (checkerName : String) (enabled : Bool) : checkerControllerImpl :=
  { c with globalStates := assocSet checkerName enabled c.globalStates }

def checkerControllerImpl.SetStateForDaemon (c : checkerControllerImpl)
    (daemonID : Int) (checkerName : String) (state : CheckerState) : checkerControllerImpl :=
  let inner := (assocFind daemonID c.daemonStates).getD []
  let inner2 :=
    if state = CheckerState.inherit then assocErase checkerName inner
    else assocSet checkerName (state = CheckerState.enabled) inner
  { c with daemonStates := assocSet daemonID inner2 c.daemonStates }

def checkerControllerImpl.IsCheckerEnabledForDaemon (c : checkerControllerImpl)
    (daemonID : Int) (checkerName : String) : Bool :=
  match assocFind daemonID c.daemonStates with
  | some inner =>
    match assocFind checkerName inner with
    | some enabled => enabled
    | none =>
      match assocFind checkerName c.globalStates with
      | some enabled => enabled
      | none => true
  | none =>
    match assocFind checkerName c.globalStates with
    | some enabled => enabled
    | none => true

def checkerControllerImpl.GetCheckerOwnState (c : checkerControllerImpl)
    (daemonID : Int) (checkerName : String) : CheckerState :=
  match assocFind daemonID c.daemonStates with
  | some inner =>
    match assocFind checkerName inner with
    | some true => CheckerState.enabled
    | some false => CheckerState.disabled
    | none => CheckerState.inherit
  | none => CheckerState.inherit

inductive CheckerOp where
  | setGlobal (checkerName : String) (enabled : Bool)
  | setForDaemon (daemonID : Int) (checkerName : String) (state : CheckerState)

def applyCheckerOp (c : checkerControllerImpl) : CheckerOp → checkerControllerImpl
  | .setGlobal name enabled => c.SetGlobalState name enabled
  | .setForDaemon id name state => c.SetStateForDaemon id name state

def runCheckerOps (ops : List CheckerOp) : checkerControllerImpl :=
  ops.foldl applyCheckerOp newCheckerController

/-! ## Subnet statistics values

Translated from `server/database/model/subnet.go`.  A `SubnetStats` value
is a JSON map whose entries hold `int64`, `uint64` or `*big.Int` numbers,
JSON numbers (Go `float64`, embedded as rationals), or strings.
`MarshalJSON` renders the integer kinds as decimal strings;
`UnmarshalJSON` parses strings back through
`ParseUint`/`ParseInt`/`big.Int.SetString`. -/
inductive StatValue where
  | i64 (v : Int)
  | u64 (v : Nat)
  | big (v : Int)
  | float (v : ℚ)
  | str (s : String)
deriving DecidableEq

def StatValue.toInt : StatValue → Option Int
  | .i64 v => some v
  | .u64 v => some v
  | .big v => some v
  | _ => none

/-- The value is one of the integer kinds and within its Go type's range. -/
def numericWF : StatValue → Bool
  | .i64 v => decide (-(2 ^ 63 : Int) ≤ v ∧ v < 2 ^ 63)
  | .u64 v => decide (v < 2 ^ 64)
  | .big _ => true
  | _ => false

def intStr (v : Int) : String :=
  if v < 0 then "-" ++ natStr v.natAbs else natStr v.natAbs

def marshalValue : StatValue → StatValue
  | .big v => .str (intStr v)
  | .i64 v => .str (intStr v)
  | .u64 v => .str (natStr v)
  | v => v

def SubnetStats.MarshalJSON (s : List (String × StatValue)) : List (String × StatValue) :=
  s.map fun kv => (kv.1, marshalValue kv.2)

def digitVals : List Char → Option (List Nat)
  | [] => some []
  | c :: cs =>
    match decDigitVal c, digitVals cs with
    | some d, some ds => some (d :: ds)
    | _, _ => none

def valNum (ds : List Nat) : Nat := ds.foldl (fun a d => a * 10 + d) 0

/-- Go `strconv.ParseUint(s, 10, 64)`: decimal digits only, no sign, value
below `2^64`. -/
def parseUint64 (s : String) : Option Nat :=
  match digitVals s.toList with
  | none => none
  | some ds =>
    if ds = [] then none
    else if valNum ds < 2 ^ 64 then some (valNum ds) else none

/-- Unsigned decimal digit run tagged with a sign. -/
def signedCore (neg : Bool) (ds : List Char) : Option (Bool × Nat) :=
  match digitVals ds with
  | some vs => if vs = [] then none else some (neg, valNum vs)
  | none => none

/-- Optional sign followed by decimal digits; returns the sign and the
magnitude. -/
def parseSigned (cs : List Char) : Option (Bool × Nat) :=
  match cs with
  | [] => none
  | c :: rest =>
    if c = '-' then signedCore true rest
    else if c = '+' then signedCore false rest
    else signedCore false (c :: rest)

/-- Go `strconv.ParseInt(s, 10, 64)`. -/
def parseInt64 (s : String) : Option Int :=
  match parseSigned s.toList with
  | none => none
  | some (neg, m) =>
    if neg then (if m ≤ 2 ^ 63 then some (-(m : Int)) else none)
    else (if m < 2 ^ 63 then some (m : Int) else none)

/-- Go `new(big.Int).SetString(s, 10)`. -/
def bigIntSetString (s : String) : Option Int :=
  match parseSigned s.toList with
  | none => none
  | some (neg, m) => some (if neg then -(m : Int) else (m : Int))

def unmarshalValue : StatValue → StatValue
  | .str s =>
    match parseUint64 s with
    | some v => .u64 v
    | none =>
      match parseInt64 s with
      | some v => .i64 v
      | none =>
        match bigIntSetString s with
        | some v => .big v
        | none => .str s
  | v => v

def SubnetStats.UnmarshalJSON (s : List (String × StatValue)) : List (String × StatValue) :=
  s.map fun kv => (kv.1, unmarshalValue kv.2)

/-! ## The utilization calculator

Translated from `server/apps/kea/utilizationcalculator.go` and
`server/database/model/subnet.go`.  Go `float64` arithmetic on the
statistic values is embedded as exact rational arithmetic; the `-1`
sentinel that Go propagates as NaN is embedded as `none`. -/
structure LocalSubnet where
  SubnetID : Int
  DaemonID : Int
  LocalSubnetID : Int
  Stats : List (String × StatValue)
deriving DecidableEq

/-- Function `getLocalSubnetStatValueIntOrDefault`: the statistic value when it is
a JSON number (Go `float64`), and `0` when it is missing or has any other
dynamic type. -/
def getLocalSubnetStatValueIntOrDefault (localSubnet : LocalSubnet) (name : String) : ℚ :=
  match assocFind name localSubnet.Stats with
  | none => 0
  | some (.float v) => v
  | some _ => 0

def Subnet.isFloat : StatValue → Bool
  | .float _ => true
  | _ => false

structure Subnet where
  ID : Int
  Prefix : String
  SharedNetworkID : Int
  LocalSubnets : List LocalSubnet
  AddrUtilization : Int
  PdUtilization : Int
deriving DecidableEq

def Subnet.GetFamily (s : Subnet) : Nat := if s.Prefix.toList.contains ':' then 6 else 4

/-- Function `sumStatLocalSubnets`: sums a statistic over the local subnets;
a `-1` sentinel value makes the whole sum NaN, embedded as `none`. -/
def sumStatLocalSubnets (subnet : Subnet) (statName : String) : Option ℚ :=
  subnet.LocalSubnets.foldl
    (fun acc localSubnet =>
      match acc with
      | none => none
      | some s =>
        let stat := getLocalSubnetStatValueIntOrDefault localSubnet statName
        if stat = -1 then none else some (s + stat))
    (some 0)

def safeDiv (a b : ℚ) : ℚ := if b = 0 then 0 else a / b

structure subnetIPv4Stats where
  totalAddresses : ℚ
  totalAssignedAddresses : ℚ
  totalDeclinedAddresses : ℚ
deriving DecidableEq

def subnetIPv4Stats.getAddressUtilization (s : subnetIPv4Stats) : ℚ :=
  safeDiv s.totalAssignedAddresses s.totalAddresses

def subnetIPv4Stats.getPDUtilization (_ : subnetIPv4Stats) : ℚ := 0

structure subnetIPv6Stats where
  totalNAs : ℚ
  totalAssignedNAs : ℚ
  totalDeclinedNAs : ℚ
  totalPDs : ℚ
  totalAssignedPDs : ℚ
deriving DecidableEq

def subnetIPv6Stats.getAddressUtilization (s : subnetIPv6Stats) : ℚ :=
  safeDiv s.totalAssignedNAs s.totalNAs

def subnetIPv6Stats.getPDUtilization (s : subnetIPv6Stats) : ℚ :=
  safeDiv s.totalAssignedPDs s.totalPDs

/-- The IPv4 per-subnet statistics assembled by `addIPv4Subnet`;
`none` when any of the sums hit the NaN sentinel. -/
def subnetIPv4StatsOf (s : Subnet) : Option subnetIPv4Stats :=
  match sumStatLocalSubnets s "total-addresses",
      sumStatLocalSubnets s "assigned-addresses",
      sumStatLocalSubnets s "declined-addresses" with
  | some t, some a, some d => some ⟨t, a, d⟩
  | _, _, _ => none

/-- Go's `int16(x)` conversion on the non-NaN values stored here:
truncation toward zero. -/
def goInt16OfRat (q : ℚ) : Int := Int.tdiv q.num (q.den : Int)

/-- The value `Subnet.UpdateStatistics` stores: `int16(utilization * 1000)`. -/
def storedUtilization (u : ℚ) : Int := goInt16OfRat (u * 1000)

/-- Method `Subnet.UpdateStatistics` with the utilization ratios delivered by the
`utilizationStats` argument. -/
def Subnet.UpdateStatistics (s : Subnet) (addrUtilization pdUtilization : ℚ) : Subnet :=
  { s with
    AddrUtilization := storedUtilization addrUtilization
    PdUtilization := storedUtilization pdUtilization }

/-- A subnet whose daemon reports more assigned than total addresses. -/
def overAssignedSubnet : Subnet :=
  ⟨7, "192.0.2.0/24", 0,
    [⟨7, 1, 1,
      [("total-addresses", StatValue.float 1), ("assigned-addresses", StatValue.float 2),
        ("declined-addresses", StatValue.float 0)]⟩], 0, 0⟩

/-! ## The subnet-overlap detector

Modelled from the spec: `findOverlaps` lives in
`server/configreview/keachecker.go`, which is absent from the source
snapshot; only `keachecker_test.go` is present.  Spec 4.F: convert each
prefix to its binary form, sort so parents precede children, sweep
comparing against masked-equal entries, stop at the pair cap.  The sort
order on equal prefixes (higher ID first, making the higher ID the
parent of a duplicate pair) is pinned by the unit tests. -/
structure minimalSubnet where
  ID : Int
  Subnet : String
deriving DecidableEq

structure minimalSubnetPair where
  parent : minimalSubnet
  child : minimalSubnet
deriving DecidableEq

/-- The `width` most significant bits of `v`. -/
def bitsOfNat : Nat → Nat → List Bool
  | 0, _ => []
  | w + 1, v => decide (2 ^ w ≤ v) :: bitsOfNat w (v % 2 ^ w)

def ipBits : IPAddr → List Bool
  | .v4 a b c d => bitsOfNat 32 (((a * 256 + b) * 256 + c) * 256 + d)
  | .v6 gs => gs.foldr (fun g acc => bitsOfNat 16 g ++ acc) []

/-- Modelled from the spec: the binary network prefix of a CIDR string —
the first prefix-length bits of the parsed address. -/
def prefixToBinary (s : String) : Option (List Bool) :=
  match splitOnChar '/' s.toList with
  | [addrPart, lenPart] =>
    match parseIP ⟨addrPart⟩, digitVals lenPart with
    | some ip, some ds =>
      if ds = [] then none
      else
        let len := valNum ds
        let bits := ipBits ip
        if len ≤ bits.length then some (bits.take len) else none
    | _, _ => none
  | _ => none

/-- Strict lexicographic order on binary prefixes; a proper prefix sorts
before its extensions, so parents precede children. -/
def bitsLt : List Bool → List Bool → Bool
  | [], [] => false
  | [], _ :: _ => true
  | _ :: _, [] => false
  | a :: as, b :: bs => (!a && b) || (a == b && bitsLt as bs)

/-- Sort key: binary prefix ascending, ties broken by ID descending. -/
def subnetPrefixLe (x y : minimalSubnet × List Bool) : Bool :=
  bitsLt x.2 y.2 || (x.2 == y.2 && decide (y.1.ID ≤ x.1.ID))

def insertSorted {α : Type} (le : α → α → Bool) (x : α) : List α → List α
  | [] => [x]
  | y :: ys => if le x y then x :: y :: ys else y :: insertSorted le x ys

def insertionSort {α : Type} (le : α → α → Bool) : List α → List α
  | [] => []
  | x :: xs => insertSorted le x (insertionSort le xs)

/-- The sweep: each entry is paired, as parent, with every later entry
whose binary prefix extends its own. -/
def sweepOverlaps : List (minimalSubnet × List Bool) → List minimalSubnetPair
  | [] => []
  | x :: rest =>
    (rest.filterMap fun y => if x.2.isPrefixOf y.2 then some ⟨x.1, y.1⟩ else none)
      ++ sweepOverlaps rest

/-- Modelled from the spec: `findOverlaps` of
`server/configreview/keachecker.go` (absent from the snapshot).  Parses
the prefixes, sorts them so parents precede children, sweeps, and caps
the result at `maxOverlaps` pairs in total. -/
def findOverlaps (subnets : List minimalSubnet) (maxOverlaps : Nat) : List minimalSubnetPair :=
  let parsed := subnets.filterMap fun sn => (prefixToBinary sn.Subnet).map fun b => (sn, b)
  (sweepOverlaps (insertionSort subnetPrefixLe parsed)).take maxOverlaps

def subnetFamily (sn : minimalSubnet) : Nat := if sn.Subnet.toList.contains ':' then 6 else 4

/-- The ordering claimed by the spec for the detector output:
family descending, parent ID descending, child ID ascending. -/
def claimedPairLe (p q : minimalSubnetPair) : Bool :=
  decide (subnetFamily q.parent < subnetFamily p.parent) ||
    (subnetFamily p.parent == subnetFamily q.parent &&
      (decide (q.parent.ID < p.parent.ID) ||
        (p.parent.ID == q.parent.ID && decide (p.child.ID ≤ q.child.ID))))

def sortedByB {α : Type} (le : α → α → Bool) : List α → Bool
  | [] => true
  | [_] => true
  | p :: q :: rest => le p q && sortedByB le (q :: rest)

/-! ## The out-of-pool-reservations checker

Modelled from the spec: `reservationsOutOfPool` lives in
`server/configreview/keachecker.go`, absent from the snapshot.  Spec 4.F:
flag a subnet when every configured IP reservation sits outside every
pool; the `reservations-out-of-pool` boolean is inherited
subnet > shared-network > global > default-false and disables the check
for its scope; prefix-delegation subnets use `pd-pools` and reserved
`prefixes` with the same semantics; reservations without an IP/PD
component are ignored.  `keachecker_test.go` pins down that a subnet
with reservations but no pools is reported. -/
inductive IPResource where
  | addr (a : Nat)
  | pre (bits : List Bool)
deriving DecidableEq

structure KeaReservation where
  resources : List IPResource
deriving DecidableEq

structure KeaAddressPool where
  lowerBound : Nat
  upperBound : Nat
deriving DecidableEq

structure KeaPdPool where
  prefixBits : List Bool
deriving DecidableEq

structure KeaSubnet where
  pools : List KeaAddressPool
  pdPools : List KeaPdPool
  reservations : List KeaReservation
  reservationsOutOfPool : Option Bool
deriving DecidableEq

structure KeaSharedNetwork where
  reservationsOutOfPool : Option Bool
  subnets : List KeaSubnet
deriving DecidableEq

structure KeaDhcpConfig where
  reservationsOutOfPool : Option Bool
  subnets : List KeaSubnet
  sharedNetworks : List KeaSharedNetwork
deriving DecidableEq

/-- An IP reservation is in pool when an address pool range contains the
address, or a pd-pool prefix contains the reserved prefix. -/
def resourceInPools (subnet : KeaSubnet) : IPResource → Bool
  | .addr a => subnet.pools.any fun p => decide (p.lowerBound ≤ a) && decide (a ≤ p.upperBound)
  | .pre bits => subnet.pdPools.any fun p => p.prefixBits.isPrefixOf bits

/-- All IP/PD resources reserved in the subnet's configured reservations;
reservations without an IP/PD component contribute nothing. -/
def subnetReservedResources (subnet : KeaSubnet) : List IPResource :=
  subnet.reservations.foldr (fun r acc => r.resources ++ acc) []

/-- Scope inheritance: subnet > shared-network > global > default false. -/
def effectiveOutOfPoolMode (globalMode netMode subnetMode : Option Bool) : Bool :=
  subnetMode.getD (netMode.getD (globalMode.getD false))

/-- The checker flags a subnet when out-of-pool mode is not already
enabled for its scope, it has at least one IP reservation and every
reservation sits outside every pool. -/
def subnetFlaggedOutOfPool (globalMode netMode : Option Bool) (subnet : KeaSubnet) : Bool :=
  !(effectiveOutOfPoolMode globalMode netMode subnet.reservationsOutOfPool) &&
    !(subnetReservedResources subnet).isEmpty &&
    (subnetReservedResources subnet).all fun r => !(resourceInPools subnet r)

def countOutOfPoolSubnets (cfg : KeaDhcpConfig) : Nat :=
  (cfg.subnets.filter (subnetFlaggedOutOfPool cfg.reservationsOutOfPool none)).length +
    cfg.sharedNetworks.foldr
      (fun net acc =>
        (net.subnets.filter
          (subnetFlaggedOutOfPool cfg.reservationsOutOfPool net.reservationsOutOfPool)).length
          + acc) 0

/-- Modelled from the spec: the `reservationsOutOfPool` checker of
`server/configreview/keachecker.go` (absent from the snapshot); `none` is
the nil report, `some n` a report counting `n` subnets for which
out-of-pool reservation mode is recommended. -/
def reservationsOutOfPool (cfg : KeaDhcpConfig) : Option Nat :=
  if countOutOfPoolSubnets cfg = 0 then none else some (countOutOfPoolSubnets cfg)

def ipv4Num (a b c d : Nat) : Nat := ((a * 256 + b) * 256 + c) * 256 + d

/-- The spec scenario subnet `192.0.3.0/24` with pool
`192.0.3.10 - 192.0.3.100` and one reserved address. -/
def specScenarioSubnet (resAddr : Nat) (oop : Option Bool) : KeaSubnet :=
  ⟨[⟨ipv4Num 192 0 3 10, ipv4Num 192 0 3 100⟩], [], [⟨[.addr resAddr]⟩], oop⟩

/-! ## Kea Control Agent configuration address resolution

Modelled from the spec: package `keaconfig` (`NewFromJSON`,
`GetHTTPHost`, `GetHTTPPort`) is absent from the snapshot; only its tests
are present.  Spec 4.C: "`0.0.0.0` is rewritten to `127.0.0.1` and `::`
to `::1` because a listening wildcard is not a valid connect target."
The Go getters return a value and an ok flag. -/
structure KeaControlAgentConfig where
  httpHost : Option String
  httpPort : Option Int
deriving DecidableEq

/-- Modelled from the spec: `GetHTTPHost` of package `keaconfig` —
default `127.0.0.1` when unset (ok false) or empty, with the wildcard
listen addresses `0.0.0.0` and `::` rewritten to the loopback addresses
`127.0.0.1` and `::1`. -/
def KeaControlAgentConfig.GetHTTPHost (c : KeaControlAgentConfig) : String × Bool :=
  match c.httpHost with
  | none => ("127.0.0.1", false)
  | some h =>
    if h = "" then ("127.0.0.1", true)
    else if h = "0.0.0.0" then ("127.0.0.1", true)
    else if h = "::" then ("::1", true)
    else (h, true)

/-- Modelled from the spec: `GetHTTPPort` of package `keaconfig` —
the configured port unchanged, zero with ok false when unset. -/
def KeaControlAgentConfig.GetHTTPPort (c : KeaControlAgentConfig) : Int × Bool :=
  match c.httpPort with
  | none => (0, false)
  | some p => (p, true)

example : parseIP "127.0.0.1" = some (.v4 127 0 0 1) := by decide

example : parseIP "FF:FF:0000:0000::" = some (.v6 [255, 255, 0, 0, 0, 0, 0, 0]) := by decide

example : parseIP "FF:FF:0000::" = some (.v6 [255, 255, 0, 0, 0, 0, 0, 0]) := by decide

example : parseIP "FF:FF::" = some (.v6 [255, 255, 0, 0, 0, 0, 0, 0]) := by decide

example : canonicalIPString (.v6 [255, 255, 0, 0, 0, 0, 0, 0]) = "ff:ff::" := by decide

example : parseIP "::1" = some (.v6 [0, 0, 0, 0, 0, 0, 0, 1]) := by decide

example : parseIP "2001:db8:0000::" = some (.v6 [8193, 3512, 0, 0, 0, 0, 0, 0]) := by decide

example : canonicalIPString (.v6 [8193, 3512, 0, 0, 0, 0, 0, 0]) = "2001:db8::" := by decide

example :
    parseIP "::1234:5678:91.123.4.56"
      = some (.v6 [0, 0, 0, 0, 4660, 22136, 23419, 1080]) := by decide

example :
    parseIP "::1234:5678:5b7b:438"
      = some (.v6 [0, 0, 0, 0, 4660, 22136, 23419, 1080]) := by decide

example :
    canonicalIPString (.v6 [0, 0, 0, 0, 4660, 22136, 23419, 1080])
      = "::1234:5678:5b7b:438" := by decide

example :
    parseIP "2001:0000:0000:0000:0000:0000:0000:FFFF"
      = some (.v6 [8193, 0, 0, 0, 0, 0, 0, 65535]) := by decide

example : canonicalIPString (.v6 [8193, 0, 0, 0, 0, 0, 0, 65535]) = "2001::ffff" := by decide

example : canonicalIPString (.v4 192 168 0 1) = "192.168.0.1" := by decide

/-- The invalid-address vectors of `TestAddBasicAuthCredentialsInvalidIPs`
are all rejected by the modelled parser. -/
example :
    (["", "foo", "ZZ:ZZ::", "0", ":", ".", "19216801", "192..168.0.1",
      "FF:::FF:FF::", "FF:FF:FFFFFF::", "-192.168.0.1"].all
        fun s => (parseIP s).isNone) = true := by decide

theorem keyFind_erase (key : String × Int) (l : List ((String × Int) × BasicAuthCredentials)) :
    keyFind key (keyErase key l) = none := by
  induction l with
  | nil => rfl
  | cons e rest ih =>
    by_cases h : e.1 = key
    · simpa [keyErase, h] using ih
    · simpa [keyErase, keyFind, h] using ih

/-- C1: for IP-address strings that parse to the same address and any port,
`AddOrUpdateBasicAuth` with one variant succeeds, `GetBasicAuth` with any
other variant of the same address and port returns the stored credentials,
`RemoveBasicAuth` with any variant deletes the same entry so a subsequent
`GetBasicAuth` returns nothing, and every key of the resulting store is in
the image of the canonical printer (IPv4 dotted-quad; IPv6 lowercased and
zero-collapsed). -/
theorem credentials_store_canonical_variants
    (store : CredentialsStore) (s1 s2 s3 : String) (a : IPAddr) (port : Int)
    (credentials : BasicAuthCredentials)
    (h1 : parseIP s1 = some a) (h2 : parseIP s2 = some a) (h3 : parseIP s3 = some a)
    (hwf : storeKeysCanonical store) :
    ∃ st, store.AddOrUpdateBasicAuth s1 port credentials = .ok st ∧
      st.GetBasicAuth s2 port = some credentials ∧
      (st.RemoveBasicAuth s3 port).GetBasicAuth s2 port = none ∧
      storeKeysCanonical st := by
  have k1 : credentialsKey s1 port = some (canonicalIPString a, port) := by
    simp [credentialsKey, h1]
  have k2 : credentialsKey s2 port = some (canonicalIPString a, port) := by
    simp [credentialsKey, h2]
  have k3 : credentialsKey s3 port = some (canonicalIPString a, port) := by
    simp [credentialsKey, h3]
  refine ⟨⟨((canonicalIPString a, port), credentials)
      :: keyErase (canonicalIPString a, port) store.basicAuthCredentials⟩, ?_, ?_, ?_, ?_⟩
  · simp [CredentialsStore.AddOrUpdateBasicAuth, k1]
  · simp [CredentialsStore.GetBasicAuth, k2, keyFind]
  · simp only [CredentialsStore.RemoveBasicAuth, CredentialsStore.GetBasicAuth, k2, k3]
    have : keyErase (canonicalIPString a, port)
        (((canonicalIPString a, port), credentials)
          :: keyErase (canonicalIPString a, port) store.basicAuthCredentials)
        = keyErase (canonicalIPString a, port)
            (keyErase (canonicalIPString a, port) store.basicAuthCredentials) := by
      simp [keyErase]
    rw [this]
    exact keyFind_erase _ _
  · intro e he
    rcases List.mem_cons.mp he with h | h
    · exact ⟨a, by simp [h]⟩
    · exact hwf e (List.mem_of_mem_filter h)

/-- Witness for C1: the spec scenario — insert at `FF:FF:0000:0000::`,
query at `FF:FF::`, delete at `FF:FF:0000::`, and the final query returns
nothing. -/
theorem credentials_store_canonical_variants_witness :
    parseIP "FF:FF:0000:0000::" = some (.v6 [255, 255, 0, 0, 0, 0, 0, 0]) ∧
    parseIP "FF:FF::" = some (.v6 [255, 255, 0, 0, 0, 0, 0, 0]) ∧
    parseIP "FF:FF:0000::" = some (.v6 [255, 255, 0, 0, 0, 0, 0, 0]) ∧
    ∃ st,
      NewCredentialsStore.AddOrUpdateBasicAuth "FF:FF:0000:0000::" 42
          (NewBasicAuthCredentials "foo" "bar") = .ok st ∧
      st.GetBasicAuth "FF:FF::" 42 = some (NewBasicAuthCredentials "foo" "bar") ∧
      (st.RemoveBasicAuth "FF:FF:0000::" 42).GetBasicAuth "FF:FF::" 42 = none ∧
      storeKeysCanonical st :=
  ⟨by decide, by decide, by decide,
    credentials_store_canonical_variants NewCredentialsStore
      "FF:FF:0000:0000::" "FF:FF::" "FF:FF:0000::" (.v6 [255, 255, 0, 0, 0, 0, 0, 0]) 42
      (NewBasicAuthCredentials "foo" "bar") (by decide) (by decide) (by decide)
      (fun e he => absurd he (List.not_mem_nil e))⟩

/-- C9: `AddOrUpdateBasicAuth` returns an error exactly when the address is
not a parseable literal IPv4/IPv6 address; a parseable literal is stored
under its canonical key. -/
theorem addOrUpdateBasicAuth_error_iff_unparseable
    (store : CredentialsStore) (s : String) (port : Int)
    (credentials : BasicAuthCredentials) :
    ((∃ e, store.AddOrUpdateBasicAuth s port credentials = .error e) ↔ parseIP s = none)
    ∧ ∀ a, parseIP s = some a →
        store.AddOrUpdateBasicAuth s port credentials
          = .ok ⟨((canonicalIPString a, port), credentials)
              :: keyErase (canonicalIPString a, port) store.basicAuthCredentials⟩ := by
  constructor
  · cases h : parseIP s with
    | none =>
      simp [CredentialsStore.AddOrUpdateBasicAuth, credentialsKey, h]
    | some a =>
      simp [CredentialsStore.AddOrUpdateBasicAuth, credentialsKey, h]
  · intro a h
    simp [CredentialsStore.AddOrUpdateBasicAuth, credentialsKey, h]

theorem assocFind_set_self {α β : Type} [DecidableEq α] (k : α) (v : β) (l : List (α × β)) :
    assocFind k (assocSet k v l) = some v := by
  simp [assocSet, assocFind]

theorem assocFind_erase {α β : Type} [DecidableEq α] (k : α) (l : List (α × β)) :
    assocFind k (assocErase k l) = none := by
  induction l with
  | nil => rfl
  | cons e rest ih =>
    by_cases h : e.1 = k
    · simpa [assocErase, h] using ih
    · simpa [assocErase, assocFind, h] using ih

theorem isCheckerEnabled_resolution (c : checkerControllerImpl)
    (daemonID : Int) (checkerName : String) :
    c.IsCheckerEnabledForDaemon daemonID checkerName =
      (match c.GetCheckerOwnState daemonID checkerName with
       | CheckerState.enabled => true
       | CheckerState.disabled => false
       | CheckerState.inherit => c.GetGlobalState checkerName) := by
  unfold checkerControllerImpl.IsCheckerEnabledForDaemon
    checkerControllerImpl.GetCheckerOwnState checkerControllerImpl.GetGlobalState
  cases assocFind daemonID c.daemonStates with
  | none => cases assocFind checkerName c.globalStates <;> rfl
  | some inner =>
    cases h : assocFind checkerName inner with
    | none => cases assocFind checkerName c.globalStates <;> simp [h]
    | some b => cases b <;> simp [h]

/-- C2: after any sequence of `SetGlobalState` and `SetStateForDaemon`
operations, `IsCheckerEnabledForDaemon` returns the recorded per-daemon
non-inherit state when there is one, otherwise the recorded global state,
otherwise `true`; and `SetStateForDaemon` with the inherit state deletes
the per-daemon override, so `GetCheckerOwnState` subsequently returns
inherit. -/
theorem checker_controller_resolution (ops : List CheckerOp)
    (daemonID : Int) (checkerName : String) :
    ((runCheckerOps ops).IsCheckerEnabledForDaemon daemonID checkerName =
      (match (runCheckerOps ops).GetCheckerOwnState daemonID checkerName with
       | CheckerState.enabled => true
       | CheckerState.disabled => false
       | CheckerState.inherit => (runCheckerOps ops).GetGlobalState checkerName)) ∧
    ((runCheckerOps ops).SetStateForDaemon daemonID checkerName
        CheckerState.inherit).GetCheckerOwnState daemonID checkerName
      = CheckerState.inherit := by
  refine ⟨isCheckerEnabled_resolution _ _ _, ?_⟩
  unfold checkerControllerImpl.SetStateForDaemon checkerControllerImpl.GetCheckerOwnState
  simp [assocFind_set_self, assocFind_erase]

theorem decDigitVal_decChar (d : Nat) (h : d < 10) : decDigitVal (decChar d) = some d := by
  interval_cases d <;> decide

theorem digitVals_natDigitsAux (fuel : Nat) :
    ∀ n acc ds, n ≤ fuel → digitVals acc = some ds →
      ∃ es, digitVals (natDigitsAux fuel n acc) = some es ∧ es ≠ [] ∧
        valNum es = List.foldl (fun a d => a * 10 + d) n ds := by
  induction fuel with
  | zero =>
    intro n acc ds hn hacc
    have hn0 : n = 0 := Nat.le_zero.mp hn
    subst hn0
    refine ⟨0 :: ds, ?_, by simp, ?_⟩
    · simp [natDigitsAux, digitVals, decDigitVal_decChar 0 (by omega), hacc]
    · simp [valNum]
  | succ fuel ih =>
    intro n acc ds hn hacc
    by_cases h : n < 10
    · refine ⟨n :: ds, ?_, by simp, ?_⟩
      · simp [natDigitsAux, h, digitVals, decDigitVal_decChar n h, hacc]
      · simp [valNum]
    · have hrec : n / 10 ≤ fuel := by
        have : n / 10 < n := Nat.div_lt_self (by omega) (by omega)
        omega
      have hacc2 : digitVals (decChar (n % 10) :: acc) = some (n % 10 :: ds) := by
        simp [digitVals, decDigitVal_decChar (n % 10) (Nat.mod_lt n (by omega)), hacc]
      obtain ⟨es, h1, h2, h3⟩ := ih (n / 10) (decChar (n % 10) :: acc) (n % 10 :: ds) hrec hacc2
      refine ⟨es, ?_, h2, ?_⟩
      · simpa [natDigitsAux, h] using h1
      · rw [h3]
        simp only [List.foldl_cons]
        congr 1
        omega

theorem digitVals_natDigits (n : Nat) :
    ∃ es, digitVals (natDigits n) = some es ∧ es ≠ [] ∧ valNum es = n := by
  obtain ⟨es, h1, h2, h3⟩ :=
    digitVals_natDigitsAux n n [] [] (le_refl n) (by simp [digitVals])
  exact ⟨es, h1, h2, by simpa [valNum] using h3⟩

theorem toList_natStr (n : Nat) : (natStr n).toList = natDigits n := rfl

theorem data_natStr (n : Nat) : (natStr n).data = natDigits n := rfl

theorem parseUint64_natStr (n : Nat) (h : n < 2 ^ 64) : parseUint64 (natStr n) = some n := by
  obtain ⟨es, h1, h2, h3⟩ := digitVals_natDigits n
  have h9 : n < 18446744073709551616 := by norm_num at h; exact h
  simp [parseUint64, toList_natStr, data_natStr, h1, h2, h3, h9]

theorem parseUint64_natStr_big (n : Nat) (h : ¬ n < 2 ^ 64) :
    parseUint64 (natStr n) = none := by
  obtain ⟨es, h1, h2, h3⟩ := digitVals_natDigits n
  have h9 : ¬ n < 18446744073709551616 := by norm_num at h; omega
  simp [parseUint64, toList_natStr, data_natStr, h1, h2, h3, h9]

theorem toList_neg_natStr (m : Nat) :
    ("-" ++ natStr m).toList = '-' :: natDigits m := by
  have h := String.data_append "-" (natStr m)
  simp only [String.toList, h, data_natStr]
  rfl

theorem natDigits_head_digit (m : Nat) :
    ∃ c cs, natDigits m = c :: cs ∧ c ≠ '-' ∧ c ≠ '+' := by
  obtain ⟨es, h1, h2, h3⟩ := digitVals_natDigits m
  cases hcs : natDigits m with
  | nil => rw [hcs] at h1; simp [digitVals] at h1; subst h1; simp at h2
  | cons c cs =>
    rw [hcs] at h1
    have hc : decDigitVal c ≠ none := by
      intro hc
      simp [digitVals, hc] at h1
    have hcdash : c ≠ '-' := by intro he; subst he; exact hc rfl
    have hcplus : c ≠ '+' := by intro he; subst he; exact hc rfl
    exact ⟨c, cs, rfl, hcdash, hcplus⟩

theorem parseSigned_natStr (m : Nat) : parseSigned (natStr m).toList = some (false, m) := by
  obtain ⟨es, h1, h2, h3⟩ := digitVals_natDigits m
  obtain ⟨c, cs, hcs, hcdash, hcplus⟩ := natDigits_head_digit m
  rw [toList_natStr, hcs]
  rw [hcs] at h1
  simp [parseSigned, hcdash, hcplus, signedCore, h1, h2, h3]

theorem parseSigned_neg_natStr (m : Nat) :
    parseSigned ("-" ++ natStr m).toList = some (true, m) := by
  obtain ⟨es, h1, h2, h3⟩ := digitVals_natDigits m
  rw [toList_neg_natStr]
  simp [parseSigned, signedCore, h1, h2, h3]

theorem parseUint64_neg_natStr (m : Nat) : parseUint64 ("-" ++ natStr m) = none := by
  rw [parseUint64, toList_neg_natStr]
  simp [digitVals, decDigitVal]

theorem parseInt64_natStr (m : Nat) (h : m < 2 ^ 63) : parseInt64 (natStr m) = some (m : Int) := by
  have h9 : m < 9223372036854775808 := by norm_num at h; exact h
  unfold parseInt64
  rw [parseSigned_natStr]
  simp [h9]

theorem parseInt64_neg_natStr (m : Nat) (h : m ≤ 2 ^ 63) :
    parseInt64 ("-" ++ natStr m) = some (-(m : Int)) := by
  have h9 : m ≤ 9223372036854775808 := by norm_num at h; exact h
  unfold parseInt64
  rw [parseSigned_neg_natStr]
  simp [h9]

theorem parseInt64_natStr_big (m : Nat) (h : ¬ m < 2 ^ 63) : parseInt64 (natStr m) = none := by
  have h9 : ¬ m < 9223372036854775808 := by norm_num at h; omega
  unfold parseInt64
  rw [parseSigned_natStr]
  simp [h9]

theorem parseInt64_neg_natStr_big (m : Nat) (h : ¬ m ≤ 2 ^ 63) :
    parseInt64 ("-" ++ natStr m) = none := by
  have h9 : ¬ m ≤ 9223372036854775808 := by norm_num at h; omega
  unfold parseInt64
  rw [parseSigned_neg_natStr]
  simp [h9]

theorem bigIntSetString_natStr (m : Nat) : bigIntSetString (natStr m) = some (m : Int) := by
  unfold bigIntSetString
  rw [parseSigned_natStr]
  simp

theorem bigIntSetString_neg_natStr (m : Nat) :
    bigIntSetString ("-" ++ natStr m) = some (-(m : Int)) := by
  unfold bigIntSetString
  rw [parseSigned_neg_natStr]
  simp

/-- Round-trip of a single numeric statistic value: marshalling to its
decimal string and unmarshalling through the
`ParseUint`/`ParseInt`/`SetString` cascade preserves the integer value. -/
theorem unmarshal_marshal_value (v : StatValue) (h : numericWF v = true) :
    (unmarshalValue (marshalValue v)).toInt = v.toInt := by
  cases v with
  | float q => simp [numericWF] at h
  | str s => simp [numericWF] at h
  | u64 m =>
    have hm : m < 2 ^ 64 := by simpa [numericWF] using h
    simp [marshalValue, unmarshalValue, parseUint64_natStr m hm, StatValue.toInt]
  | i64 z =>
    have hz : -(2 ^ 63 : Int) ≤ z ∧ z < 2 ^ 63 := by simpa [numericWF] using h
    by_cases hneg : z < 0
    · have hstr : intStr z = "-" ++ natStr z.natAbs := by simp [intStr, hneg]
      have habs : z.natAbs ≤ 2 ^ 63 := by omega
      have hcast : ((z.natAbs : Nat) : Int) = -z :=
        Int.ofNat_natAbs_of_nonpos (le_of_lt hneg)
      simp only [marshalValue, hstr, unmarshalValue, parseUint64_neg_natStr,
        parseInt64_neg_natStr z.natAbs habs, StatValue.toInt, hcast, neg_neg]
    · have hstr : intStr z = natStr z.natAbs := by simp [intStr, hneg]
      have habs : z.natAbs < 2 ^ 64 := by omega
      have hcast : ((z.natAbs : Nat) : Int) = z := Int.natAbs_of_nonneg (not_lt.mp hneg)
      simp only [marshalValue, hstr, unmarshalValue, parseUint64_natStr z.natAbs habs,
        StatValue.toInt, hcast]
  | big z =>
    by_cases hneg : z < 0
    · have hstr : intStr z = "-" ++ natStr z.natAbs := by simp [intStr, hneg]
      have hcast : ((z.natAbs : Nat) : Int) = -z :=
        Int.ofNat_natAbs_of_nonpos (le_of_lt hneg)
      by_cases hr : z.natAbs ≤ 2 ^ 63
      · simp only [marshalValue, hstr, unmarshalValue, parseUint64_neg_natStr,
          parseInt64_neg_natStr z.natAbs hr, StatValue.toInt, hcast, neg_neg]
      · simp only [marshalValue, hstr, unmarshalValue, parseUint64_neg_natStr,
          parseInt64_neg_natStr_big z.natAbs hr, bigIntSetString_neg_natStr,
          StatValue.toInt, hcast, neg_neg]
    · have hstr : intStr z = natStr z.natAbs := by simp [intStr, hneg]
      have hcast : ((z.natAbs : Nat) : Int) = z := Int.natAbs_of_nonneg (not_lt.mp hneg)
      by_cases hr : z.natAbs < 2 ^ 64
      · simp only [marshalValue, hstr, unmarshalValue, parseUint64_natStr z.natAbs hr,
          StatValue.toInt, hcast]
      · have hr63 : ¬ z.natAbs < 2 ^ 63 := by
          intro hlt
          exact hr (lt_trans hlt (by norm_num))
        simp only [marshalValue, hstr, unmarshalValue, parseUint64_natStr_big z.natAbs hr,
          parseInt64_natStr_big z.natAbs hr63, bigIntSetString_natStr, StatValue.toInt,
          hcast]

/-- C7: marshalling a `SubnetStats` map whose values are `int64`, `uint64`
or `*big.Int` integers and unmarshalling it back yields a map with the
same keys, in the same order, whose values are numerically equal to the
originals — no precision is lost even beyond the 64-bit range. -/
theorem subnetStats_marshal_roundtrip (stats : List (String × StatValue))
    (h : ∀ kv ∈ stats, numericWF kv.2 = true) :
    List.Forall₂ (fun a b => a.1 = b.1 ∧ b.2.toInt = a.2.toInt)
      stats (SubnetStats.UnmarshalJSON (SubnetStats.MarshalJSON stats)) := by
  induction stats with
  | nil => simp [SubnetStats.UnmarshalJSON, SubnetStats.MarshalJSON]
  | cons kv rest ih =>
    have hkv : numericWF kv.2 = true := h kv (by simp)
    have hrest : ∀ kv2 ∈ rest, numericWF kv2.2 = true := fun kv2 hm => h kv2 (by simp [hm])
    simp only [SubnetStats.UnmarshalJSON, SubnetStats.MarshalJSON, List.map_cons]
    exact List.Forall₂.cons ⟨rfl, unmarshal_marshal_value kv.2 hkv⟩ (ih hrest)

/-- Witness for C7 at a concrete map with a value beyond the 64-bit
signed range, a negative value and an unsigned value. -/
theorem subnetStats_marshal_roundtrip_witness :
    (∀ kv ∈ [("total-nas", StatValue.big (2 ^ 70)), ("assigned-nas", StatValue.i64 (-5)),
        ("declined-nas", StatValue.u64 3)], numericWF kv.2 = true) ∧
    List.Forall₂ (fun a b => a.1 = b.1 ∧ b.2.toInt = a.2.toInt)
      [("total-nas", StatValue.big (2 ^ 70)), ("assigned-nas", StatValue.i64 (-5)),
        ("declined-nas", StatValue.u64 3)]
      (SubnetStats.UnmarshalJSON (SubnetStats.MarshalJSON
        [("total-nas", StatValue.big (2 ^ 70)), ("assigned-nas", StatValue.i64 (-5)),
          ("declined-nas", StatValue.u64 3)])) :=
  ⟨by decide, subnetStats_marshal_roundtrip _ (by decide)⟩

/-- C10: `getLocalSubnetStatValueIntOrDefault` returns `0` for a missing
statistic and for a statistic of any dynamic type other than `float64` —
in particular for the `uint64`, `int64` and `*big.Int` values that
`SubnetStats.UnmarshalJSON` produces from string-encoded numbers. -/
theorem statValue_non_float_counts_as_zero (localSubnet : LocalSubnet) (name : String) :
    (assocFind name localSubnet.Stats = none →
      getLocalSubnetStatValueIntOrDefault localSubnet name = 0) ∧
    (∀ v, assocFind name localSubnet.Stats = some v → Subnet.isFloat v = false →
      getLocalSubnetStatValueIntOrDefault localSubnet name = 0) := by
  constructor
  · intro h
    simp [getLocalSubnetStatValueIntOrDefault, h]
  · intro v hv hnf
    cases v <;> simp_all [getLocalSubnetStatValueIntOrDefault, Subnet.isFloat]

/-- Witness for C10: a statistic holding the `uint64` value that
`UnmarshalJSON` produces for the decimal string is counted as zero. -/
theorem statValue_non_float_counts_as_zero_witness :
    unmarshalValue (.str "281474976710656") = .u64 281474976710656 ∧
    assocFind "assigned-nas"
        [("assigned-nas", StatValue.u64 281474976710656)] = some (.u64 281474976710656) ∧
    Subnet.isFloat (.u64 281474976710656) = false ∧
    getLocalSubnetStatValueIntOrDefault
      ⟨1, 1, 1, [("assigned-nas", StatValue.u64 281474976710656)]⟩ "assigned-nas" = 0 :=
  ⟨by decide, by decide, by decide,
    (statValue_non_float_counts_as_zero
        ⟨1, 1, 1, [("assigned-nas", StatValue.u64 281474976710656)]⟩ "assigned-nas").2
      (.u64 281474976710656) (by decide) (by decide)⟩

theorem safeDiv_mem_unit (a b : ℚ) (h0 : 0 ≤ a) (h1 : a ≤ b) :
    0 ≤ safeDiv a b ∧ safeDiv a b ≤ 1 := by
  unfold safeDiv
  by_cases hb : b = 0
  · simp [hb]
  · have hbpos : 0 < b := lt_of_le_of_ne (le_trans h0 h1) (Ne.symm hb)
    rw [if_neg hb]
    refine ⟨by positivity, ?_⟩
    rw [div_le_one hbpos]
    exact h1

theorem storedUtilization_eq_floor (u : ℚ) (h0 : 0 ≤ u) :
    storedUtilization u = ⌊u * 1000⌋ := by
  have hq : (0 : ℚ) ≤ u * 1000 := by positivity
  have hnum : 0 ≤ (u * 1000).num := Rat.num_nonneg.mpr hq
  rw [storedUtilization, goInt16OfRat, Int.tdiv_eq_ediv hnum (by positivity), Rat.floor_def]

theorem storedUtilization_range (u : ℚ) (h0 : 0 ≤ u) (h1 : u ≤ 1) :
    0 ≤ storedUtilization u ∧ storedUtilization u ≤ 1000 := by
  rw [storedUtilization_eq_floor u h0]
  constructor
  · exact Int.floor_nonneg.mpr (by positivity)
  · have hle : ⌊u * 1000⌋ ≤ ⌊(1000 : ℚ)⌋ := Int.floor_le_floor (by nlinarith)
    simpa using hle

/-- C6 (amended): `Subnet.UpdateStatistics` stores each utilization as
the ratio multiplied by 1000, truncated to an integer, and whenever the
assigned counter does not exceed the total counter (so the `safeDiv`
ratio lies in `[0, 1]`, the normal Kea situation) the stored value lies
within `[0, 1000]`.  The code does not clamp, so the range claim fails
for inputs with `assigned > total`; see the counterexample below. -/
theorem updateStatistics_stores_ratio_in_range (s : Subnet)
    (assignedAddr totalAddr assignedPd totalPd : ℚ)
    (ha0 : 0 ≤ assignedAddr) (ha1 : assignedAddr ≤ totalAddr)
    (hp0 : 0 ≤ assignedPd) (hp1 : assignedPd ≤ totalPd) :
    (s.UpdateStatistics (safeDiv assignedAddr totalAddr)
        (safeDiv assignedPd totalPd)).AddrUtilization
      = storedUtilization (safeDiv assignedAddr totalAddr) ∧
    0 ≤ (s.UpdateStatistics (safeDiv assignedAddr totalAddr)
        (safeDiv assignedPd totalPd)).AddrUtilization ∧
    (s.UpdateStatistics (safeDiv assignedAddr totalAddr)
        (safeDiv assignedPd totalPd)).AddrUtilization ≤ 1000 ∧
    0 ≤ (s.UpdateStatistics (safeDiv assignedAddr totalAddr)
        (safeDiv assignedPd totalPd)).PdUtilization ∧
    (s.UpdateStatistics (safeDiv assignedAddr totalAddr)
        (safeDiv assignedPd totalPd)).PdUtilization ≤ 1000 := by
  obtain ⟨hu0, hu1⟩ := safeDiv_mem_unit assignedAddr totalAddr ha0 ha1
  obtain ⟨hv0, hv1⟩ := safeDiv_mem_unit assignedPd totalPd hp0 hp1
  obtain ⟨hs0, hs1⟩ := storedUtilization_range _ hu0 hu1
  obtain ⟨ht0, ht1⟩ := storedUtilization_range _ hv0 hv1
  exact ⟨rfl, hs0, hs1, ht0, ht1⟩

/-- Witness for the amended C6 statement at assigned 1, total 2. -/
theorem updateStatistics_stores_ratio_in_range_witness :
    ((0 : ℚ) ≤ 1 ∧ (1 : ℚ) ≤ 2) ∧
    (((⟨1, "192.0.2.0/24", 0, [], 0, 0⟩ : Subnet).UpdateStatistics
        (safeDiv 1 2) (safeDiv 0 2)).AddrUtilization
      = storedUtilization (safeDiv 1 2) ∧
    0 ≤ ((⟨1, "192.0.2.0/24", 0, [], 0, 0⟩ : Subnet).UpdateStatistics
        (safeDiv 1 2) (safeDiv 0 2)).AddrUtilization ∧
    ((⟨1, "192.0.2.0/24", 0, [], 0, 0⟩ : Subnet).UpdateStatistics
        (safeDiv 1 2) (safeDiv 0 2)).AddrUtilization ≤ 1000 ∧
    0 ≤ ((⟨1, "192.0.2.0/24", 0, [], 0, 0⟩ : Subnet).UpdateStatistics
        (safeDiv 1 2) (safeDiv 0 2)).PdUtilization ∧
    ((⟨1, "192.0.2.0/24", 0, [], 0, 0⟩ : Subnet).UpdateStatistics
        (safeDiv 1 2) (safeDiv 0 2)).PdUtilization ≤ 1000) :=
  ⟨⟨by norm_num, by norm_num⟩,
    updateStatistics_stores_ratio_in_range ⟨1, "192.0.2.0/24", 0, [], 0, 0⟩ 1 2 0 2
      (by norm_num) (by norm_num) (by norm_num) (by norm_num)⟩

/-- Counterexample for C6 as stated: on a statistics input with
`assigned-addresses` exceeding `total-addresses`, the utilization ratio is
2 (outside `[0, 1]`) and the value `UpdateStatistics` stores is 2000,
outside `[0, 1000]`. -/
theorem updateStatistics_range_counterexample :
    subnetIPv4StatsOf overAssignedSubnet = some ⟨1, 2, 0⟩ ∧
    subnetIPv4Stats.getAddressUtilization ⟨1, 2, 0⟩ = 2 ∧
    ¬ (subnetIPv4Stats.getAddressUtilization ⟨1, 2, 0⟩ ≤ 1) ∧
    (overAssignedSubnet.UpdateStatistics
        (subnetIPv4Stats.getAddressUtilization ⟨1, 2, 0⟩)
        (subnetIPv4Stats.getPDUtilization ⟨1, 2, 0⟩)).AddrUtilization = 2000 ∧
    ¬ ((overAssignedSubnet.UpdateStatistics
        (subnetIPv4Stats.getAddressUtilization ⟨1, 2, 0⟩)
        (subnetIPv4Stats.getPDUtilization ⟨1, 2, 0⟩)).AddrUtilization ≤ 1000) := by
  have hu : subnetIPv4Stats.getAddressUtilization ⟨1, 2, 0⟩ = 2 := by
    norm_num [subnetIPv4Stats.getAddressUtilization, safeDiv]
  have hst : storedUtilization 2 = 2000 := by
    rw [storedUtilization_eq_floor 2 (by norm_num)]
    norm_num
  refine ⟨?_, hu, by norm_num [hu], ?_, ?_⟩
  · simp only [subnetIPv4StatsOf, sumStatLocalSubnets, overAssignedSubnet,
      getLocalSubnetStatValueIntOrDefault, assocFind, List.foldl_cons, List.foldl_nil]
    simp +decide
  · simp only [Subnet.UpdateStatistics, hu, hst]
  · simp only [Subnet.UpdateStatistics, hu, hst]
    norm_num

/-- Test `TestFindOverlapsForDuplicates`: duplicated prefixes yield one pair
per duplicate, with the higher ID as parent. -/
example :
    findOverlaps [⟨1, "192.168.0.0/24"⟩, ⟨2, "192.168.0.0/24"⟩,
        ⟨5, "3001:0::/80"⟩, ⟨6, "3001:0::/80"⟩] 42
      = [⟨⟨6, "3001:0::/80"⟩, ⟨5, "3001:0::/80"⟩⟩,
          ⟨⟨2, "192.168.0.0/24"⟩, ⟨1, "192.168.0.0/24"⟩⟩] := by decide

/-- Tests `TestFindOverlapsEmptySubnets` and
`TestFindOverlapsNonOverlappingSubnets`. -/
example :
    findOverlaps [] 42 = [] ∧
    findOverlaps [⟨1, "192.168.0.0/24"⟩, ⟨2, "192.168.1.0/24"⟩, ⟨3, "192.168.2.0/24"⟩,
        ⟨4, "192.168.3.0/24"⟩, ⟨5, "3001:0::/80"⟩, ⟨6, "3001:1::/80"⟩,
        ⟨7, "3001:2::/80"⟩, ⟨8, "3001:3::/80"⟩] 42 = [] := by decide

/-- Test `TestFindOverlapsForSameNetworkButDifferentPrefixLengths`: the
shorter prefix is the parent. -/
example :
    (findOverlaps [⟨1, "192.168.0.0/16"⟩, ⟨2, "192.168.0.0/24"⟩,
        ⟨5, "3001:0::/64"⟩, ⟨6, "3001:0::/80"⟩] 42).map
          (fun p => (p.parent.ID, p.child.ID))
      = [(5, 6), (1, 2)] := by decide

/-- Test `TestFindOverlapsForContainingPrefixes`. -/
example :
    (findOverlaps [⟨1, "192.168.0.0/16"⟩, ⟨2, "192.168.5.0/24"⟩,
        ⟨5, "3001:0::/16"⟩, ⟨6, "3001:1::/80"⟩] 42).map
          (fun p => (p.parent.ID, p.child.ID))
      = [(5, 6), (1, 2)] := by decide

/-- Test `TestFindOverlapsForMultipleDuplicates`: three identical prefixes per
family yield all three pairs, parents descending. -/
example :
    (findOverlaps [⟨1, "192.168.0.0/24"⟩, ⟨2, "192.168.0.0/24"⟩, ⟨3, "192.168.0.0/24"⟩,
        ⟨5, "3001:0::/80"⟩, ⟨6, "3001:0::/80"⟩, ⟨7, "3001:0::/80"⟩] 42).map
          (fun p => (p.parent.ID, p.child.ID))
      = [(7, 6), (7, 5), (6, 5), (3, 2), (3, 1), (2, 1)] := by decide

theorem bitsLt_irrefl (bs : List Bool) : bitsLt bs bs = false := by
  induction bs with
  | nil => rfl
  | cons b rest ih => cases b <;> simp [bitsLt, ih]

theorem isPrefixOf_self (bs : List Bool) : bs.isPrefixOf bs = true := by
  induction bs with
  | nil => rfl
  | cons b rest ih => simp [List.isPrefixOf, ih]

/-- C4 (amended): two configured subnets with the same parsed prefix
produce exactly one overlap entry, with the higher-ID subnet as parent
and the lower-ID subnet as child — not two mutually-referential
entries. -/
theorem findOverlaps_duplicate_single_pair (A B : minimalSubnet) (bits : List Bool)
    (lim : Nat) (hA : prefixToBinary A.Subnet = some bits)
    (hB : prefixToBinary B.Subnet = some bits) (hID : A.ID < B.ID) (hlim : 1 ≤ lim) :
    findOverlaps [A, B] lim = [⟨B, A⟩] := by
  have hle : subnetPrefixLe (A, bits) (B, bits) = false := by
    simp [subnetPrefixLe, bitsLt_irrefl]
    omega
  obtain ⟨l, hl⟩ : ∃ l, lim = l + 1 := ⟨lim - 1, by omega⟩
  subst hl
  simp [findOverlaps, hA, hB, insertionSort, insertSorted, hle, sweepOverlaps,
    isPrefixOf_self]

/-- Witness for the amended C4 at two concrete duplicate subnets. -/
theorem findOverlaps_duplicate_single_pair_witness :
    prefixToBinary "10.0.0.0/8" = prefixToBinary "10.0.0.0/8" ∧
    findOverlaps [⟨1, "10.0.0.0/8"⟩, ⟨2, "10.0.0.0/8"⟩] 10
      = [⟨⟨2, "10.0.0.0/8"⟩, ⟨1, "10.0.0.0/8"⟩⟩] :=
  ⟨rfl,
    findOverlaps_duplicate_single_pair ⟨1, "10.0.0.0/8"⟩ ⟨2, "10.0.0.0/8"⟩
      [false, false, false, false, true, false, true, false]
      10 (by decide) (by decide) (by decide) (by decide)⟩

/-- Counterexample for C4 as stated: for the duplicate pair (5, 6) the
detector returns the entry with parent 6 and child 5 but no
mutually-referential entry with parent 5 and child 6 (and likewise for
(1, 2)); each duplicate pair yields a single entry. -/
theorem findOverlaps_duplicates_not_mutual :
    (⟨⟨6, "3001:0::/80"⟩, ⟨5, "3001:0::/80"⟩⟩ : minimalSubnetPair) ∈
      findOverlaps [⟨1, "192.168.0.0/24"⟩, ⟨2, "192.168.0.0/24"⟩,
        ⟨5, "3001:0::/80"⟩, ⟨6, "3001:0::/80"⟩] 42 ∧
    ¬ ((⟨⟨5, "3001:0::/80"⟩, ⟨6, "3001:0::/80"⟩⟩ : minimalSubnetPair) ∈
      findOverlaps [⟨1, "192.168.0.0/24"⟩, ⟨2, "192.168.0.0/24"⟩,
        ⟨5, "3001:0::/80"⟩, ⟨6, "3001:0::/80"⟩] 42) ∧
    (findOverlaps [⟨1, "192.168.0.0/24"⟩, ⟨2, "192.168.0.0/24"⟩,
        ⟨5, "3001:0::/80"⟩, ⟨6, "3001:0::/80"⟩] 42).length = 2 := by
  refine ⟨by decide, by decide, by decide⟩

/-- C5 (amended, cap): for every input and positive limit the detector
returns at most `limit` pairs in total across both address families. -/
theorem findOverlaps_length_le (subnets : List minimalSubnet) (maxOverlaps : Nat)
    (_hpos : 0 < maxOverlaps) :
    (findOverlaps subnets maxOverlaps).length ≤ maxOverlaps := by
  simp only [findOverlaps]
  exact List.length_take_le maxOverlaps
    (sweepOverlaps (insertionSort subnetPrefixLe
      (subnets.filterMap fun sn => (prefixToBinary sn.Subnet).map fun b => (sn, b))))

/-- Witness for the cap at the input of
`TestFindOverlapsExceedLimitOnDuplicatedSubnets`. -/
theorem findOverlaps_length_le_witness :
    0 < 2 ∧
    (findOverlaps [⟨1, "192.168.0.0/16"⟩, ⟨2, "192.168.5.0/24"⟩, ⟨3, "192.68.5.0/24"⟩,
        ⟨4, "192.68.5.0/24"⟩, ⟨5, "3001:0::/16"⟩, ⟨6, "3001:1::/80"⟩, ⟨7, "2001:0::/16"⟩,
        ⟨8, "2001:0::/16"⟩, ⟨9, "4001:0::/16"⟩, ⟨10, "4001:0::/16"⟩] 2).length ≤ 2 :=
  ⟨by decide,
    findOverlaps_length_le
      [⟨1, "192.168.0.0/16"⟩, ⟨2, "192.168.5.0/24"⟩, ⟨3, "192.68.5.0/24"⟩,
        ⟨4, "192.68.5.0/24"⟩, ⟨5, "3001:0::/16"⟩, ⟨6, "3001:1::/80"⟩, ⟨7, "2001:0::/16"⟩,
        ⟨8, "2001:0::/16"⟩, ⟨9, "4001:0::/16"⟩, ⟨10, "4001:0::/16"⟩] 2 (by decide)⟩

/-- Counterexample for C5 as stated: on the repeated-duplicate input the
detector output — the order pinned by
`TestFindOverlapsForMultipleDuplicates` — is not sorted by
(family desc, parent.id desc, child.id asc): for the equal parents 7 the
children appear in descending order (6 before 5). -/
theorem findOverlaps_not_sorted_by_claimed_order :
    (findOverlaps [⟨1, "192.168.0.0/24"⟩, ⟨2, "192.168.0.0/24"⟩, ⟨3, "192.168.0.0/24"⟩,
        ⟨5, "3001:0::/80"⟩, ⟨6, "3001:0::/80"⟩, ⟨7, "3001:0::/80"⟩] 42).map
          (fun p => (p.parent.ID, p.child.ID))
      = [(7, 6), (7, 5), (6, 5), (3, 2), (3, 1), (2, 1)] ∧
    sortedByB claimedPairLe
      (findOverlaps [⟨1, "192.168.0.0/24"⟩, ⟨2, "192.168.0.0/24"⟩, ⟨3, "192.168.0.0/24"⟩,
        ⟨5, "3001:0::/80"⟩, ⟨6, "3001:0::/80"⟩, ⟨7, "3001:0::/80"⟩] 42) = false := by
  refine ⟨by decide, by decide⟩

/-- Spec scenario 4: reservation `192.0.3.5` outside the pool emits a
recommendation; `192.0.3.50` inside the pool emits nothing;
`reservations-out-of-pool=true` at subnet scope emits nothing
regardless. -/
example :
    reservationsOutOfPool ⟨none, [specScenarioSubnet (ipv4Num 192 0 3 5) none], []⟩ = some 1 ∧
    reservationsOutOfPool ⟨none, [specScenarioSubnet (ipv4Num 192 0 3 50) none], []⟩ = none ∧
    reservationsOutOfPool
      ⟨none, [specScenarioSubnet (ipv4Num 192 0 3 5) (some true)], []⟩ = none := by
  refine ⟨by decide, by decide, by decide⟩

/-- Tests `TestDHCPv4ReservationsOutOfPoolEnabledGlobally` and
`TestDHCPv4ReservationsOutOfPoolEnabledAtSharedNetworkLevel`. -/
example :
    reservationsOutOfPool
      ⟨some true, [], [⟨none, [specScenarioSubnet (ipv4Num 192 0 3 5) none]⟩]⟩ = none ∧
    reservationsOutOfPool
      ⟨some false, [], [⟨some true, [specScenarioSubnet (ipv4Num 192 0 3 5) none]⟩]⟩ = none ∧
    reservationsOutOfPool
      ⟨none, [], [⟨none, [specScenarioSubnet (ipv4Num 192 0 3 5) none]⟩]⟩ = some 1 := by
  refine ⟨by decide, by decide, by decide⟩

/-- Tests `TestDHCPv6ReservationsOutOfPDPoolTopLevelSubnet` and
`TestDHCPv6ReservationsOutOfPoolTopLevelSubnetInPDPool`: prefix
reservations against `pd-pools`. -/
example :
    (prefixToBinary "3000::/64").isSome ∧ (prefixToBinary "3001::/96").isSome ∧
    (prefixToBinary "3000::/96").isSome ∧
    reservationsOutOfPool
      ⟨none, [⟨[], [⟨(prefixToBinary "3000::/64").getD []⟩],
        [⟨[.pre ((prefixToBinary "3001::/96").getD [])]⟩], none⟩], []⟩ = some 1 ∧
    reservationsOutOfPool
      ⟨none, [⟨[], [⟨(prefixToBinary "3000::/64").getD []⟩],
        [⟨[.pre ((prefixToBinary "3000::/96").getD [])]⟩], none⟩], []⟩ = none := by
  refine ⟨by decide, by decide, by decide, by decide, by decide⟩

/-- Tests `TestDHCPv4ReservationsOutOfPoolNoPoolsNoReservations` and
`TestDHCPv4ReservationsOutOfPoolNoPoolsNonIPReservations`: no report
without IP reservations. -/
example :
    reservationsOutOfPool ⟨none, [⟨[], [], [], none⟩], []⟩ = none ∧
    reservationsOutOfPool ⟨none, [⟨[], [], [⟨[]⟩], none⟩], []⟩ = none := by
  refine ⟨by decide, by decide⟩

/-- Counterexample for C3 as stated: a subnet with an IP reservation and
no pools at all is flagged by the checker (mirroring
`TestDHCPv4ReservationsOutOfPoolNoPools`, which requires a non-nil
report), contradicting the claim that such a subnet is never flagged. -/
theorem reservationsOutOfPool_no_pools_counterexample :
    (⟨[], [], [⟨[.addr (ipv4Num 192 0 3 5)]⟩], none⟩ : KeaSubnet).pools = [] ∧
    subnetFlaggedOutOfPool none none
      ⟨[], [], [⟨[.addr (ipv4Num 192 0 3 5)]⟩], none⟩ = true ∧
    reservationsOutOfPool
      ⟨none, [⟨[], [], [⟨[.addr (ipv4Num 192 0 3 5)]⟩], none⟩], []⟩ = some 1 := by
  refine ⟨by decide, by decide, by decide⟩

/-- C3 (amended): the checker flags a subnet exactly when the effective
`reservations-out-of-pool` mode for its scope
(subnet > shared-network > global > default false) is off, the subnet has
at least one IP reservation, and every reservation sits outside every
pool; in particular a subnet with reservations and no pools is flagged,
and a scope with the boolean set to true is never flagged. -/
theorem reservations_out_of_pool_flag_iff (globalMode netMode : Option Bool)
    (subnet : KeaSubnet) :
    (subnetFlaggedOutOfPool globalMode netMode subnet = true ↔
      (effectiveOutOfPoolMode globalMode netMode subnet.reservationsOutOfPool = false ∧
        subnetReservedResources subnet ≠ [] ∧
        ∀ r ∈ subnetReservedResources subnet, resourceInPools subnet r = false)) ∧
    (effectiveOutOfPoolMode globalMode netMode subnet.reservationsOutOfPool = true →
      subnetFlaggedOutOfPool globalMode netMode subnet = false) := by
  constructor
  · simp only [subnetFlaggedOutOfPool, Bool.and_eq_true, Bool.not_eq_true',
      List.isEmpty_eq_false, List.all_eq_true, Bool.not_eq_true]
    tauto
  · intro h
    simp [subnetFlaggedOutOfPool, h]

/-- Test `TestKeaControlAgentConfigurationResolveHost`: unset, empty, wildcard
IPv4 and wildcard IPv6 hosts. -/
example :
    (⟨none, none⟩ : KeaControlAgentConfig).GetHTTPHost = ("127.0.0.1", false) ∧
    (⟨some "", none⟩ : KeaControlAgentConfig).GetHTTPHost = ("127.0.0.1", true) ∧
    (⟨some "0.0.0.0", none⟩ : KeaControlAgentConfig).GetHTTPHost = ("127.0.0.1", true) ∧
    (⟨some "::", none⟩ : KeaControlAgentConfig).GetHTTPHost = ("::1", true) ∧
    (⟨some "192.168.100.1", some 8001⟩ : KeaControlAgentConfig).GetHTTPHost
      = ("192.168.100.1", true) := by
  refine ⟨by decide, by decide, by decide, by decide, by decide⟩

/-- C8: a detected Kea Control Agent configuration with `http-host`
`0.0.0.0` resolves to control address `127.0.0.1`, and with `::` to
`::1`, while the configured `http-port` is returned unchanged in both
cases. -/
theorem kea_ca_wildcard_host_rewritten (c : KeaControlAgentConfig) (port : Int) :
    (c.httpHost = some "0.0.0.0" → c.httpPort = some port →
      c.GetHTTPHost = ("127.0.0.1", true) ∧ c.GetHTTPPort = (port, true)) ∧
    (c.httpHost = some "::" → c.httpPort = some port →
      c.GetHTTPHost = ("::1", true) ∧ c.GetHTTPPort = (port, true)) := by
  constructor
  · intro hh hp
    constructor
    · simp [KeaControlAgentConfig.GetHTTPHost, hh]
    · simp [KeaControlAgentConfig.GetHTTPPort, hp]
  · intro hh hp
    constructor
    · simp [KeaControlAgentConfig.GetHTTPHost, hh]
    · simp [KeaControlAgentConfig.GetHTTPPort, hp]

/-- Witness for C8 at the test configurations
`"http-host": "0.0.0.0", "http-port": 1234` and
`"http-host": "::", "http-port": 1234`. -/
theorem kea_ca_wildcard_host_rewritten_witness :
    ((⟨some "0.0.0.0", some 1234⟩ : KeaControlAgentConfig).GetHTTPHost
        = ("127.0.0.1", true) ∧
      (⟨some "0.0.0.0", some 1234⟩ : KeaControlAgentConfig).GetHTTPPort = (1234, true)) ∧
    ((⟨some "::", some 1234⟩ : KeaControlAgentConfig).GetHTTPHost = ("::1", true) ∧
      (⟨some "::", some 1234⟩ : KeaControlAgentConfig).GetHTTPPort = (1234, true)) :=
  ⟨(kea_ca_wildcard_host_rewritten ⟨some "0.0.0.0", some 1234⟩ 1234).1 rfl rfl,
    (kea_ca_wildcard_host_rewritten ⟨some "::", some 1234⟩ 1234).2 rfl rfl⟩

end Stork
